import Mathlib

/-!
# wsrpc: bidirectional RPC over one WebSocket connection

A shallow embedding of `wsconn.go` (the adapter from a message-oriented
WebSocket connection to a byte connection), of `wsrpc.go` (the endpoint:
construction, accept loop, Register, Call, Close) and of the test service of
`wsrpc_test.go`, followed by the properties proved about them.

Collaborators that live outside the repository (the WebSocket library behind
the `WSConn` interface, the yamux session, the net/rpc client and server) are
modelled by scripted results: the state of a collaborator holds the results its
next calls will give, and counters or logs of the calls made on it.
-/

namespace Wsrpc

/-! ## Part 1: wsconn.go -/

/-- Go error values, identified by their message. -/
abbrev Error := String

/-- One byte of a Go byte slice. -/
abbrev Byte := Fin 256

/-- What one call of `ReadMessage() (messageType int, p []byte, err error)`
returns. -/
structure Message where
  messageType : Int
  p : List Byte
  err : Option Error
deriving DecidableEq, Repr

/-- The WebSocket connection behind the `WSConn` interface. `inbound` holds the
results of the coming `ReadMessage` calls, in order (when it is empty the next
call does not return). `writeErrs` holds the results of the coming
`WriteMessage` calls (when it is empty the call succeeds). `writeCalls` logs
every `WriteMessage` invocation with its message type and payload. -/
structure WSConn where
  inbound : List Message
  writeErrs : List (Option Error)
  writeCalls : List (Int × List Byte)
deriving DecidableEq, Repr

/-- The call `ws.ReadMessage()`: `none` when the call blocks for ever. -/
def WSConn.ReadMessage (ws : WSConn) : Option (Message × WSConn) :=
  match ws.inbound with
  | [] => none
  | r :: rest => some (r, { ws with inbound := rest })

/-- The call `ws.WriteMessage(messageType, data)`. -/
def WSConn.WriteMessage (ws : WSConn) (messageType : Int) (data : List Byte) :
    Option Error × WSConn :=
  match ws.writeErrs with
  | [] => (none, { ws with writeCalls := ws.writeCalls ++ [(messageType, data)] })
  | e :: rest =>
    (e, { ws with writeErrs := rest, writeCalls := ws.writeCalls ++ [(messageType, data)] })

/-- The struct `WebSocketConn { ws WSConn }`. -/
structure WebSocketConn where
  ws : WSConn
deriving DecidableEq, Repr

/-- The constructor `NewWebSocketConn(ws)`. -/
def NewWebSocketConn (ws : WSConn) : WebSocketConn := { ws := ws }

/-- Go's builtin `copy(dst, src)`: the number of bytes copied, which is the
smaller of the two lengths, and `dst` afterwards. -/
def copy (dst src : List Byte) : Nat × List Byte :=
  (min dst.length src.length, src.take dst.length ++ dst.drop src.length)

/-- How a call of `Read` ends: it never returns (`blocked`), or it returns
`(n, err)` leaving the buffer as `b` and the connection as `c`. -/
inductive ReadOutcome where
  | blocked
  | ret (n : Nat) (err : Option Error) (b : List Byte) (c : WebSocketConn)
deriving DecidableEq, Repr

/-- The loop of `WebSocketConn.Read`, with a bound on the number of
iterations; `none` when the bound is reached. -/
def readLoop : Nat → WebSocketConn → List Byte → Option ReadOutcome
  | 0, _, _ => none
  | fuel + 1, c, b =>
    match c.ws.ReadMessage with
    | none => some .blocked
    | some (r, ws1) =>
      match r.err with
      | some e => some (.ret 0 (some e) b { ws := ws1 })
      | none =>
        if r.p.length > 0 then
          some (.ret (copy b r.p).1 none (copy b r.p).2 { ws := ws1 })
        else
          readLoop fuel { ws := ws1 } b

/-- The method `WebSocketConn.Read(b)`. Every iteration of the loop consumes one
pending `ReadMessage` result, so one more iteration than there are pending
results always suffices. -/
def WebSocketConn.Read (c : WebSocketConn) (b : List Byte) : Option ReadOutcome :=
  readLoop (c.ws.inbound.length + 1) c b

/-- The method `WebSocketConn.Write(b)`: the returned `(n, err)` and the
connection afterwards. -/
def WebSocketConn.Write (c : WebSocketConn) (b : List Byte) :
    (Nat × Option Error) × WebSocketConn :=
  match c.ws.WriteMessage 2 b with
  | (some e, ws1) => ((0, some e), { ws := ws1 })
  | (none, ws1) => ((b.length, none), { ws := ws1 })

/-- A keepalive: a `ReadMessage` result with a nil error and a zero-length
payload. -/
def Message.isKeepalive (r : Message) : Bool :=
  r.err.isNone && r.p.isEmpty

/-- A sequence of `Read` calls, one per buffer of `bufs`, in order: the bytes
delivered by the successful calls (`b[:n]` of each), concatenated. A call
that returns an error delivers nothing; after a call that blocks no later call
is made. -/
def readAll : WebSocketConn → List (List Byte) → List Byte
  | _, [] => []
  | c, b :: bs =>
    match c.Read b with
    | some (.ret n none b1 c1) => b1.take n ++ readAll c1 bs
    | some (.ret _ (some _) _ c1) => readAll c1 bs
    | _ => []

/-- The payloads of the messages of a sequence of `ReadMessage` results (those
with a nil error), concatenated. -/
def payloadBytes (rs : List Message) : List Byte :=
  ((rs.filter (fun r => r.err.isNone)).map (fun r => r.p)).flatten

/-! ## Part 2: wsrpc.go -/

/-- A yamux stream, identified by its number. -/
abbrev Stream := Nat

/-- The arguments and the reply of a call, as the codec sees them. -/
abbrev Value := List Int

/-- What `session.Open()` and `session.Accept()` return: a stream or an
error. -/
inductive StreamResult where
  | stream (s : Stream)
  | err (e : Error)
deriving DecidableEq, Repr

/-- The yamux session as the endpoint uses it. `openResult` is what `Open()`
returns; `acceptResults` holds the results of the coming `Accept()` calls, in
order (when it is empty the next call does not return); `closeResults` holds
the results of the coming `Close()` calls (when it is empty the call returns
nil); `closeCalls` counts the `Close()` calls made so far. -/
structure Session where
  openResult : StreamResult
  acceptResults : List StreamResult
  closeResults : List (Option Error)
  closeCalls : Nat
deriving DecidableEq, Repr

/-- What `yamux.Server(conn, cfg)` and `yamux.Client(conn, cfg)` return. -/
inductive SessionResult where
  | session (s : Session)
  | err (e : Error)
deriving DecidableEq, Repr

/-- The `net.Conn` handed to a constructor, as yamux sees it: the result of
`yamux.Server` on it and the result of `yamux.Client` on it. -/
structure Conn where
  server : SessionResult
  client : SessionResult
deriving DecidableEq, Repr

/-- The call `session.Open()`. -/
def Session.Open (s : Session) : StreamResult × Session :=
  (s.openResult, s)

/-- The call `session.Accept()`: `none` when the call does not return. -/
def Session.Accept (s : Session) : Option (StreamResult × Session) :=
  match s.acceptResults with
  | [] => none
  | r :: rest => some (r, { s with acceptResults := rest })

/-- The call `session.Close()`. -/
def Session.Close (s : Session) : Option Error × Session :=
  match s.closeResults with
  | [] => (none, { s with closeCalls := s.closeCalls + 1 })
  | e :: rest => (e, { s with closeResults := rest, closeCalls := s.closeCalls + 1 })

/-- A request written to the outbound stream by the net/rpc client. -/
structure Request where
  seq : Nat
  serviceMethod : String
  args : Value
deriving DecidableEq, Repr

/-- The net/rpc client on the outbound stream: the next sequence number, the
requests written so far, the sequence numbers of the calls waiting for their
response, whether `Close` has been called, and how many times. -/
structure Client where
  stream : Stream
  seq : Nat
  sent : List Request
  pending : List Nat
  closing : Bool
  closeCalls : Nat
deriving DecidableEq, Repr

/-- The call `rpc.NewClient(stream)`. -/
def Client.new (stream : Stream) : Client :=
  { stream := stream, seq := 0, sent := [], pending := [], closing := false, closeCalls := 0 }

/-- The first half of `rpcClient.Call` on a client that is not closing: the
request gets the next sequence number, is registered as pending and is
written to the stream. -/
def Client.send (c : Client) (serviceMethod : String) (args : Value) : Client :=
  { c with
    seq := c.seq + 1
    sent := c.sent ++ [{ seq := c.seq, serviceMethod := serviceMethod, args := args }]
    pending := c.pending ++ [c.seq] }

/-- The call `rpcClient.Close()`: an error when the client is closing
already. -/
def Client.Close (c : Client) : Option Error × Client :=
  (if c.closing then some "connection is shut down" else none,
   { c with closing := true, closeCalls := c.closeCalls + 1 })

/-- The net/rpc server of the endpoint: `serving` lists the streams for which
a `ServeConn` task has been started, in order; `registry` lists the qualified
method names (`Service.Method`) registered so far. -/
structure RpcServer where
  serving : List Stream
  registry : List String
deriving DecidableEq, Repr

/-- The call `rpc.NewServer()`. -/
def RpcServer.new : RpcServer := { serving := [], registry := [] }

/-- The statement `go rpcServer.ServeConn(stream)`. -/
def RpcServer.goServeConn (r : RpcServer) (stream : Stream) : RpcServer :=
  { r with serving := r.serving ++ [stream] }

/-- A Go channel of `struct{}` on which nothing is ever sent: whether it is
closed, and how many times `close` has been executed on it. -/
structure Chan where
  closed : Bool
  closes : Nat
deriving DecidableEq, Repr

/-- The expression `make(chan struct{})`. -/
def Chan.make : Chan := { closed := false, closes := 0 }

/-- The statement `close(ch)`: `none` is the run-time panic "close of closed
channel". -/
def Chan.close (ch : Chan) : Option Chan :=
  if ch.closed then none else some { closed := true, closes := ch.closes + 1 }

/-- The struct `WSRPC`. `mu` is true while the mutex is held. `acceptLoops`
counts the `go wsrpc.acceptStreams()` statements executed on the endpoint. -/
structure WSRPC where
  mu : Bool
  session : Session
  rpcServer : RpcServer
  rpcClient : Option Client
  closeChan : Chan
  acceptLoops : Nat
deriving DecidableEq, Repr

/-- How a call of a method that takes the lock ends: it waits for `wsrpc.mu`
(`blocked`), it panics, or it returns `a` and leaves the endpoint as `w`. -/
inductive Outcome (α : Type) where
  | blocked
  | panicked
  | ret (a : α) (w : WSRPC)
deriving DecidableEq, Repr

/-- The method `WSRPC.Close()`. -/
def WSRPC.Close (w : WSRPC) : Outcome (Option Error) :=
  if w.mu then .blocked
  else
    let w1 := { w with mu := true }
    if w1.closeChan.closed then
      .ret none { w1 with mu := false }
    else
      match w1.closeChan.close with
      | none => .panicked
      | some ch =>
        let w2 := { w1 with closeChan := ch }
        let w3 :=
          match w2.rpcClient with
          | some c => { w2 with rpcClient := some c.Close.2 }
          | none => w2
        let r := w3.session.Close
        .ret r.1 { w3 with session := r.2, mu := false }

/-- The method `WSRPC.Done()`: the channel, of which a receive succeeds exactly
when it is closed. -/
def WSRPC.Done (w : WSRPC) : Chan := w.closeChan

/-- A sequence of `n` calls of `Close`, one after the other: the errors they
return, in order. -/
def closeTimes : Nat → WSRPC → Outcome (List (Option Error))
  | 0, w => .ret [] w
  | n + 1, w =>
    match w.Close with
    | .blocked => .blocked
    | .panicked => .panicked
    | .ret e w1 =>
      match closeTimes n w1 with
      | .ret es w2 => .ret (e :: es) w2
      | o => o

/-- How a run of `acceptStreams` ends: it waits in `Accept` for ever, it waits
for the lock inside `Close`, it panics, or it returns. -/
inductive LoopOutcome where
  | waitingAccept (w : WSRPC)
  | waitingLock (w : WSRPC)
  | panicked
  | returned (w : WSRPC)
deriving DecidableEq, Repr

/-- The loop of `WSRPC.acceptStreams`, with a bound on the number of
iterations; `none` when the bound is reached. -/
def acceptLoop : Nat → WSRPC → Option LoopOutcome
  | 0, _ => none
  | fuel + 1, w =>
    match w.session.Accept with
    | none => some (.waitingAccept w)
    | some (.err _, s1) =>
      let w1 := { w with session := s1 }
      if w1.closeChan.closed then some (.returned w1)
      else
        match w1.Close with
        | .blocked => some (.waitingLock w1)
        | .panicked => some .panicked
        | .ret _ w2 => some (.returned w2)
    | some (.stream stream, s1) =>
      acceptLoop fuel { w with session := s1, rpcServer := w.rpcServer.goServeConn stream }

/-- The method `WSRPC.acceptStreams()`, run on its own. Every iteration consumes
one pending `Accept` result, so one more iteration than there are pending
results always suffices. -/
def WSRPC.acceptStreams (w : WSRPC) : Option LoopOutcome :=
  acceptLoop (w.session.acceptResults.length + 1) w

/-- What a constructor leaves behind: the returned `(*WSRPC, error)` pair, and
in `obj` the endpoint object it allocated, which the accept goroutine keeps
using also when nil is returned (`none` when nothing was allocated). -/
structure Built where
  wsrpc : Option WSRPC
  err : Option Error
  obj : Option WSRPC
deriving DecidableEq, Repr

/-- The function `NewServer(conn)`, run to its return. The accept goroutine it
starts is run separately, by `WSRPC.acceptStreams` on `obj`. -/
def NewServer (conn : Conn) : Built :=
  match conn.server with
  | .err e => { wsrpc := none, err := some e, obj := none }
  | .session session =>
    let w0 : WSRPC :=
      { mu := false, session := session, rpcServer := RpcServer.new, rpcClient := none,
        closeChan := Chan.make, acceptLoops := 0 }
    let w1 := { w0 with acceptLoops := w0.acceptLoops + 1 }
    match w1.session.Open with
    | (.err e, s1) =>
      { wsrpc := none, err := some e, obj := some { w1 with session := s1.Close.2 } }
    | (.stream stream, s1) =>
      let w2 := { w1 with session := s1, rpcClient := some (Client.new stream) }
      { wsrpc := some w2, err := none, obj := some w2 }

/-- The function `NewClient(conn)`, run to its return. The accept goroutine it
starts is run separately, by `WSRPC.acceptStreams` on `obj`. -/
def NewClient (conn : Conn) : Built :=
  match conn.client with
  | .err e => { wsrpc := none, err := some e, obj := none }
  | .session session =>
    let w0 : WSRPC :=
      { mu := false, session := session, rpcServer := RpcServer.new, rpcClient := none,
        closeChan := Chan.make, acceptLoops := 0 }
    let w1 := { w0 with acceptLoops := w0.acceptLoops + 1 }
    match w1.session.Open with
    | (.err e, s1) =>
      { wsrpc := none, err := some e, obj := some { w1 with session := s1.Close.2 } }
    | (.stream stream, s1) =>
      let w2 := { w1 with session := s1, rpcClient := some (Client.new stream) }
      { wsrpc := some w2, err := none, obj := some w2 }

/-- How far a call of `WSRPC.Call` has got: it waits for `wsrpc.mu`
(`blocked`); it has returned `(err, reply)`; or it holds the lock, has written
its request and waits inside `rpcClient.Call` for the response (`waiting`). -/
inductive CallOutcome where
  | blocked
  | ret (err : Option Error) (reply : Value) (w : WSRPC)
  | waiting (w : WSRPC)
deriving DecidableEq, Repr

/-- The method `WSRPC.Call` up to the point where it waits for the response:
the lock, the nil check, and the start of `rpcClient.Call`, which returns at
once with an error on a closing client and otherwise writes the request. -/
def WSRPC.CallStart (w : WSRPC) (serviceMethod : String) (args reply : Value) : CallOutcome :=
  if w.mu then .blocked
  else
    let w1 := { w with mu := true }
    match w1.rpcClient with
    | none => .ret (some "rpc client is not initialized") reply { w1 with mu := false }
    | some c =>
      if c.closing then .ret (some "connection is shut down") reply { w1 with mu := false }
      else .waiting { w1 with rpcClient := some (c.send serviceMethod args) }

/-- The rest of `WSRPC.Call` for a call that waits: `rpcClient.Call` returns
`err` with the reply set to `reply` for the request numbered `seq`, and
the deferred `Unlock` runs. -/
def WSRPC.CallFinish (w : WSRPC) (seq : Nat) (err : Option Error) (reply : Value) :
    CallOutcome :=
  let w1 :=
    match w.rpcClient with
    | some c => { w with rpcClient := some { c with pending := c.pending.erase seq } }
    | none => w
  .ret err reply { w1 with mu := false }

/-- The method `WSRPC.Call(serviceMethod, args, reply)`. `resp` is what the
peer answers to the request, `none` when no response ever arrives. -/
def WSRPC.Call (w : WSRPC) (serviceMethod : String) (args reply : Value)
    (resp : Option (Option Error × Value)) : CallOutcome :=
  match w.CallStart serviceMethod args reply with
  | .waiting w1 =>
    match resp, w.rpcClient with
    | some (err, r), some c => w1.CallFinish c.seq err r
    | _, _ => .waiting w1
  | o => o

/-! ## Part 3: registration and the round trip of a call (wsrpc.go, wsrpc_test.go) -/

/-- A receiver handed to `Register`, as net/rpc sees it by reflection: the name
of its type and the names of its exported methods. -/
structure Rcvr where
  name : String
  methods : List String
deriving DecidableEq, Repr

/-- The qualified method names (`Service.Method`) of a receiver. -/
def Rcvr.qualified (rcvr : Rcvr) : List String :=
  rcvr.methods.map (fun m => rcvr.name ++ "." ++ m)

/-- Modelled from the spec: `rpcServer.Register(rcvr)` of net/rpc, which is not
in the repository. It inserts the receiver's methods into the Service Registry
under their qualified names, and fails, changing nothing, when one of the names
is present already. -/
def RpcServer.Register (r : RpcServer) (rcvr : Rcvr) : Option Error × RpcServer :=
  if rcvr.qualified.any (fun m => r.registry.contains m) then
    (some ("rpc: service already defined: " ++ rcvr.name), r)
  else
    (none, { r with registry := r.registry ++ rcvr.qualified })

/-- The method `WSRPC.Register(rcvr)`. -/
def WSRPC.Register (w : WSRPC) (rcvr : Rcvr) : Option Error × WSRPC :=
  ((w.rpcServer.Register rcvr).1, { w with rpcServer := (w.rpcServer.Register rcvr).2 })

/-- A Go `int` of 64 bits: the value an integer result wraps to. -/
def wrapInt (x : Int) : Int :=
  (x + 2 ^ 63) % 2 ^ 64 - 2 ^ 63

/-- The struct `Args` of wsrpc_test.go. -/
structure Args where
  A : Int
  B : Int
deriving DecidableEq, Repr

/-- The struct `Reply` of wsrpc_test.go. -/
structure Reply where
  Sum : Int
deriving DecidableEq, Repr

/-- The method `TestService.Add(args, reply)` of wsrpc_test.go. -/
def TestService.Add (args : Args) (reply : Reply) : Option Error × Reply :=
  (none, { reply with Sum := wrapInt (args.A + args.B) })

/-- The receiver `&TestService{}` of wsrpc_test.go. -/
def testService : Rcvr := { name := "TestService", methods := ["Add"] }

/-- The method bodies of the program an endpoint runs in: what invoking the
method with a qualified name on encoded arguments returns, the error and the
encoded reply. -/
abbrev Code := String → Value → Option Error × Value

/-- The method bodies of the test program: `TestService.Add` on arguments that
decode as `Args`, with the reply encoded from `Reply`. -/
def testCode : Code := fun serviceMethod args =>
  if serviceMethod = "TestService.Add" then
    match args with
    | [a, b] =>
      ((TestService.Add { A := a, B := b } { Sum := 0 }).1,
       [(TestService.Add { A := a, B := b } { Sum := 0 }).2.Sum])
    | _ => (some "rpc: arguments do not decode", [])
  else (some "rpc: no such method body", [])

/-- The Response Envelope: the sequence number of the request, the error
indicator (absent on success) and the reply payload (absent on error). -/
structure Response where
  seq : Nat
  err : Option Error
  reply : Option Value
deriving DecidableEq, Repr

/-- Modelled from the spec: the Dispatch Engine, which in the repository is
`ServeConn` of net/rpc, started by `acceptStreams` for every accepted stream.
For a request read off `stream` it gives the response it writes: none when the
endpoint is shut down or no `ServeConn` task serves the stream; a "method not
found" error when the qualified name is not in the registry; otherwise what
the handler returns, under the sequence number of the request. It takes no
lock of the endpoint and leaves the endpoint as it is. -/
def WSRPC.dispatch (w : WSRPC) (code : Code) (stream : Stream) (req : Request) :
    Option Response :=
  if w.closeChan.closed then none
  else if stream ∈ w.rpcServer.serving then
    if req.serviceMethod ∈ w.rpcServer.registry then
      match code req.serviceMethod req.args with
      | (some e, _) => some { seq := req.seq, err := some e, reply := none }
      | (none, r) => some { seq := req.seq, err := none, reply := some r }
    else
      some { seq := req.seq, err := some ("rpc: method not found: " ++ req.serviceMethod),
             reply := none }
  else none

/-- The gob codec of net/rpc decoding a transmitted struct `src` into the value
`dst` the caller holds, field by field: gob does not transmit a field whose
value is zero, so such a field keeps what `dst` held; every other field takes
the transmitted value. -/
def gobDecodeInto : Value → Value → Value
  | d :: ds, v :: vs => (if v = 0 then d else v) :: gobDecodeInto ds vs
  | [], vs => vs
  | ds, [] => ds

/-- Modelled from the spec: the response reader of the Call Engine, which in
the repository is the input loop of the net/rpc client. A response whose
sequence number is pending resolves that call, which returns through
`CallFinish`: with the carried error and the caller's reply untouched, or with
nil and the carried reply decoded into the caller's reply. A response with an
unknown sequence number is dropped and the call goes on waiting. -/
def WSRPC.deliver (w : WSRPC) (reply : Value) (resp : Response) : CallOutcome :=
  match w.rpcClient with
  | none => .waiting w
  | some c =>
    if resp.seq ∈ c.pending then
      match resp.err, resp.reply with
      | some e, _ => w.CallFinish resp.seq (some e) reply
      | none, some r => w.CallFinish resp.seq none (gobDecodeInto reply r)
      | none, none => w.CallFinish resp.seq none reply
    else .waiting w

/-- A call issued on the endpoint `x` and served by its peer `y`, which runs
the method bodies `code`: `x.Call` takes the lock and writes the request to its
outbound stream, the Dispatch Engine of `y` on that stream answers the request
written, and the response is delivered to the waiting call. -/
def roundTrip (x y : WSRPC) (code : Code) (serviceMethod : String) (args reply : Value) :
    CallOutcome :=
  match x.CallStart serviceMethod args reply with
  | .waiting x1 =>
    match x1.rpcClient with
    | none => .waiting x1
    | some c1 =>
      match c1.sent.getLast? with
      | none => .waiting x1
      | some req =>
        match y.dispatch code c1.stream req with
        | none => .waiting x1
        | some resp => x1.deliver reply resp
  | o => o

/-- An endpoint as the test prepares it before calling: the constructor has
returned it, its accept loop has taken the streams that are pending and waits
for more, and `Register(&TestService{})` has returned nil. -/
def prepared (b : Built) : Option WSRPC :=
  match b.wsrpc with
  | none => none
  | some w =>
    match w.acceptStreams with
    | some (.waitingAccept w1) =>
      if (w1.Register testService).1 = none then some (w1.Register testService).2 else none
    | _ => none

/-! ## Operations on an endpoint in any order -/

/-- The operations that goroutines perform on an endpoint: a call of `Close`,
a run of the accept loop, the start of a `Call`, and the return of a waiting
`Call` with the response to the request numbered `seq`. -/
inductive Op where
  | close
  | acceptStreams
  | callStart (serviceMethod : String) (args reply : Value)
  | callFinish (seq : Nat) (err : Option Error) (reply : Value)
deriving DecidableEq, Repr

/-- The endpoint after one operation. An operation that waits for the lock
leaves the endpoint as it is; a call can only return while it holds the
lock. -/
def WSRPC.after (w : WSRPC) : Op → WSRPC
  | .close =>
    match w.Close with
    | .ret _ w1 => w1
    | _ => w
  | .acceptStreams =>
    match w.acceptStreams with
    | some (.returned w1) => w1
    | some (.waitingAccept w1) => w1
    | some (.waitingLock w1) => w1
    | _ => w
  | .callStart serviceMethod args reply =>
    match w.CallStart serviceMethod args reply with
    | .ret _ _ w1 => w1
    | .waiting w1 => w1
    | .blocked => w
  | .callFinish seq err reply =>
    if w.mu then
      match w.CallFinish seq err reply with
      | .ret _ _ w1 => w1
      | _ => w
    else w

/-- The endpoint after a sequence of operations. -/
def WSRPC.afterAll (w : WSRPC) (ops : List Op) : WSRPC :=
  ops.foldl WSRPC.after w

/-- What the operations keep true of an endpoint whose session had been closed
`k` times when the endpoint was built: the shutdown channel has been closed
once if it is closed and never otherwise, the session has been closed as often
as the channel since, and the lock is only held on an endpoint that has an RPC
client. -/
def WSRPC.Inv (w : WSRPC) (k : Nat) : Prop :=
  w.closeChan.closes = (if w.closeChan.closed then 1 else 0)
  ∧ w.session.closeCalls = k + w.closeChan.closes
  ∧ (w.mu = true → w.rpcClient.isSome = true)

/-! ## Concrete connections and endpoints used below -/

/-- A connection on which yamux creates a session, `Open` gives stream 1 and
`Accept` gives the streams 2 and 3 and then fails. -/
def goodConn : Conn :=
  { server := .session
      { openResult := .stream 1, acceptResults := [.stream 2, .stream 3, .err "EOF"],
        closeResults := [some "EOF"], closeCalls := 0 }
    client := .err "dial failed" }

/-- The endpoint `NewServer` returns on `goodConn`. -/
def goodEndpoint : WSRPC :=
  { mu := false
    session :=
      { openResult := .stream 1, acceptResults := [.stream 2, .stream 3, .err "EOF"],
        closeResults := [some "EOF"], closeCalls := 0 }
    rpcServer := { serving := [], registry := [] }
    rpcClient := some (Client.new 1)
    closeChan := Chan.make
    acceptLoops := 1 }

/-- A connection on which yamux creates a session whose `Open` fails: the
remote end has gone away. No stream ever arrives, and once the session has
been closed `Accept` returns the shutdown error. -/
def failingConn : Conn :=
  { server := .session
      { openResult := .err "remote end is not accepting connections",
        acceptResults := [.err "session shutdown"], closeResults := [], closeCalls := 0 }
    client := .session
      { openResult := .err "remote end is not accepting connections",
        acceptResults := [.err "session shutdown"], closeResults := [], closeCalls := 0 } }

/-- The endpoint object `NewServer` and `NewClient` leave behind on
`failingConn`, after their own `session.Close()`. -/
def failedEndpoint : WSRPC :=
  { mu := false
    session :=
      { openResult := .err "remote end is not accepting connections",
        acceptResults := [.err "session shutdown"], closeResults := [], closeCalls := 1 }
    rpcServer := { serving := [], registry := [] }
    rpcClient := none
    closeChan := Chan.make
    acceptLoops := 1 }

/-- The endpoint `w` after its accept loop has taken the streams `sts` and
then one error off the pending `Accept` results, leaving `rest` pending: each
stream of `sts` has got one `ServeConn` task, nothing else has changed. -/
def WSRPC.afterAccepts (w : WSRPC) (sts : List Stream) (rest : List StreamResult) : WSRPC :=
  { w with
    session := { w.session with acceptResults := rest }
    rpcServer := { w.rpcServer with serving := w.rpcServer.serving ++ sts } }

/-- The endpoint `goodEndpoint` while a call of "TestService.Add" with the
arguments 5 and 7 waits for its response. -/
def waitingEndpoint : WSRPC :=
  { goodEndpoint with
    mu := true
    rpcClient := some
      { stream := 1, seq := 1, sent := [{ seq := 0, serviceMethod := "TestService.Add", args := [5, 7] }],
        pending := [0], closing := false, closeCalls := 0 } }

/-- The connection of the test as the server side sees it: yamux creates the
session, `Open` gives the server's outbound stream 2, and `Accept` gives the
stream 1 that the client has opened. -/
def serverConn : Conn :=
  { server := .session
      { openResult := .stream 2, acceptResults := [.stream 1], closeResults := [],
        closeCalls := 0 }
    client := .err "not the client side" }

/-- The connection of the test as the client side sees it: yamux creates the
session, `Open` gives the client's outbound stream 1, and `Accept` gives the
stream 2 that the server has opened. -/
def clientConn : Conn :=
  { server := .err "not the server side"
    client := .session
      { openResult := .stream 1, acceptResults := [.stream 2], closeResults := [],
        closeCalls := 0 } }

/-- The server endpoint of the test, prepared: built by `NewServer` on
`serverConn`, serving the client's stream 1, with `TestService` registered. -/
def testServerEnd : WSRPC :=
  { mu := false
    session :=
      { openResult := .stream 2, acceptResults := [], closeResults := [], closeCalls := 0 }
    rpcServer := { serving := [1], registry := ["TestService.Add"] }
    rpcClient := some (Client.new 2)
    closeChan := Chan.make
    acceptLoops := 1 }

/-- The client endpoint of the test, prepared: built by `NewClient` on
`clientConn`, serving the server's stream 2, with `TestService` registered. -/
def testClientEnd : WSRPC :=
  { mu := false
    session :=
      { openResult := .stream 1, acceptResults := [], closeResults := [], closeCalls := 0 }
    rpcServer := { serving := [2], registry := ["TestService.Add"] }
    rpcClient := some (Client.new 1)
    closeChan := Chan.make
    acceptLoops := 1 }

/-! ## Properties of wsconn.go -/

/-- Unfolding `Read` on a connection with nothing pending: the call blocks. -/
theorem Read_nil (we : List (Option Error)) (wc : List (Int × List Byte)) (b : List Byte) :
    WebSocketConn.Read { ws := { inbound := [], writeErrs := we, writeCalls := wc } } b
      = some .blocked := by
  simp [WebSocketConn.Read, readLoop, WSConn.ReadMessage]

/-- Unfolding `Read` when the next `ReadMessage` result carries an error. -/
theorem Read_cons_err (mt : Int) (p : List Byte) (e : Error) (rest : List Message)
    (we : List (Option Error)) (wc : List (Int × List Byte)) (b : List Byte) :
    WebSocketConn.Read
        { ws := { inbound := ⟨mt, p, some e⟩ :: rest, writeErrs := we, writeCalls := wc } } b
      = some (.ret 0 (some e) b { ws := { inbound := rest, writeErrs := we, writeCalls := wc } }) := by
  simp [WebSocketConn.Read, readLoop, WSConn.ReadMessage]

/-- Unfolding `Read` when the next `ReadMessage` result is a non-empty
message. -/
theorem Read_cons_msg (mt : Int) (p : List Byte) (hp : p ≠ []) (rest : List Message)
    (we : List (Option Error)) (wc : List (Int × List Byte)) (b : List Byte) :
    WebSocketConn.Read
        { ws := { inbound := ⟨mt, p, none⟩ :: rest, writeErrs := we, writeCalls := wc } } b
      = some (.ret (copy b p).1 none (copy b p).2
          { ws := { inbound := rest, writeErrs := we, writeCalls := wc } }) := by
  have hlen : 0 < p.length := List.length_pos.mpr hp
  simp [WebSocketConn.Read, readLoop, WSConn.ReadMessage, hlen]

/-- Unfolding `Read` when the next `ReadMessage` result is a zero-length
message: the loop goes round, and the bound on iterations is still enough. -/
theorem Read_cons_empty (mt : Int) (rest : List Message)
    (we : List (Option Error)) (wc : List (Int × List Byte)) (b : List Byte) :
    WebSocketConn.Read
        { ws := { inbound := ⟨mt, [], none⟩ :: rest, writeErrs := we, writeCalls := wc } } b
      = WebSocketConn.Read { ws := { inbound := rest, writeErrs := we, writeCalls := wc } } b := by
  simp [WebSocketConn.Read, readLoop, WSConn.ReadMessage]

/-- The bound on iterations in `Read` is never reached: `Read` always has an
outcome. -/
theorem Read_total (c : WebSocketConn) (b : List Byte) : ∃ o, c.Read b = some o := by
  obtain ⟨⟨inb, we, wc⟩⟩ := c
  induction inb with
  | nil => exact ⟨_, Read_nil we wc b⟩
  | cons r rest ih =>
    obtain ⟨mt, p, err⟩ := r
    cases err with
    | some e => exact ⟨_, Read_cons_err mt p e rest we wc b⟩
    | none =>
      cases p with
      | nil => rw [Read_cons_empty]; exact ih
      | cons x xs => exact ⟨_, Read_cons_msg mt (x :: xs) (by simp) rest we wc b⟩

/-- C3. Keepalive filtering: `Read` on a connection gives the same outcome
(n, err, the buffer afterwards, and the connection afterwards) as `Read` on the
connection with the leading zero-length messages removed from the pending
inbound sequence; and a `Read` into a buffer of length at least 1 that returns
a nil error returns n at least 1. -/
theorem C3_keepalive_filtering (c : WebSocketConn) (b : List Byte) :
    c.Read b
        = WebSocketConn.Read
            { ws := { c.ws with inbound := c.ws.inbound.dropWhile Message.isKeepalive } } b
      ∧ ∀ n b1 c1, 1 ≤ b.length → c.Read b = some (.ret n none b1 c1) → 1 ≤ n := by
  obtain ⟨⟨inb, we, wc⟩⟩ := c
  induction inb with
  | nil =>
    refine ⟨by simp, ?_⟩
    intro n b1 c1 _ h
    rw [Read_nil] at h
    simp at h
  | cons r rest ih =>
    obtain ⟨mt, p, err⟩ := r
    cases err with
    | some e =>
      refine ⟨by simp [Message.isKeepalive], ?_⟩
      intro n b1 c1 _ h
      rw [Read_cons_err] at h
      simp at h
    | none =>
      cases p with
      | nil =>
        refine ⟨?_, ?_⟩
        · rw [Read_cons_empty]
          simpa [Message.isKeepalive] using ih.1
        · intro n b1 c1 hb h
          rw [Read_cons_empty] at h
          exact ih.2 n b1 c1 hb h
      | cons x xs =>
        refine ⟨by simp [Message.isKeepalive], ?_⟩
        intro n b1 c1 hb h
        rw [Read_cons_msg mt (x :: xs) (by simp)] at h
        simp only [Option.some.injEq, ReadOutcome.ret.injEq] at h
        rw [← h.1]
        simp only [copy, List.length_cons]
        omega

/-- Witness for C3: three keepalives, then the message [7, 8], read into a
buffer of length 1. -/
theorem C3_keepalive_filtering_witness :
    (1 : Nat) ≤ ([0] : List Byte).length
      ∧ WebSocketConn.Read
          { ws := { inbound := [⟨2, [], none⟩, ⟨1, [], none⟩, ⟨2, [], none⟩, ⟨2, [7, 8], none⟩],
                    writeErrs := [], writeCalls := [] } } [0]
        = some (.ret 1 none [7] { ws := { inbound := [], writeErrs := [], writeCalls := [] } })
      ∧ (1 : Nat) ≤ 1 :=
  ⟨by decide, by decide,
    (C3_keepalive_filtering
      { ws := { inbound := [⟨2, [], none⟩, ⟨1, [], none⟩, ⟨2, [], none⟩, ⟨2, [7, 8], none⟩],
                writeErrs := [], writeCalls := [] } } [0]).2 1 [7]
      { ws := { inbound := [], writeErrs := [], writeCalls := [] } } (by decide) (by decide)⟩

/-- C4. Evaluation at the failing input: two messages [1, 2] and [3] are
pending and two `Read` calls are made with buffers of length 1. Both calls
succeed with n = 1; the first delivers the byte 1 and consumes the whole
message [1, 2], so the byte 2 is never delivered; the second delivers the
byte 3. The delivered bytes [1, 3] are not a prefix of the payload bytes
[1, 2, 3]. -/
theorem C4_short_buffer_loses_bytes :
    WebSocketConn.Read
        { ws := { inbound := [⟨2, [1, 2], none⟩, ⟨2, [3], none⟩], writeErrs := [], writeCalls := [] } } [0]
      = some (.ret 1 none [1]
          { ws := { inbound := [⟨2, [3], none⟩], writeErrs := [], writeCalls := [] } })
    ∧ WebSocketConn.Read
        { ws := { inbound := [⟨2, [3], none⟩], writeErrs := [], writeCalls := [] } } [0]
      = some (.ret 1 none [3] { ws := { inbound := [], writeErrs := [], writeCalls := [] } })
    ∧ readAll
        { ws := { inbound := [⟨2, [1, 2], none⟩, ⟨2, [3], none⟩], writeErrs := [], writeCalls := [] } }
        [[0], [0]] = [1, 3]
    ∧ payloadBytes [⟨2, [1, 2], none⟩, ⟨2, [3], none⟩] = [1, 2, 3]
    ∧ ¬ (readAll
          { ws := { inbound := [⟨2, [1, 2], none⟩, ⟨2, [3], none⟩], writeErrs := [],
                    writeCalls := [] } }
          [[0], [0]] <+: payloadBytes [⟨2, [1, 2], none⟩, ⟨2, [3], none⟩]) := by
  refine ⟨by decide, by decide, by decide, by decide, by decide⟩

/-- C5. One `Write` is one outgoing binary message: `Write(b)` leaves the
connection exactly as one `WriteMessage(2, b)` call leaves it, so the log of
`WriteMessage` invocations grows by the single entry (2, b); it returns
(len(b), nil) when that call returns nil and (0, e) when it returns the
error e. -/
theorem C5_write_one_binary_message (c : WebSocketConn) (b : List Byte) :
    (c.Write b).2 = { ws := (c.ws.WriteMessage 2 b).2 }
      ∧ (c.Write b).2.ws.writeCalls = c.ws.writeCalls ++ [(2, b)]
      ∧ (c.Write b).1 =
          (match (c.ws.WriteMessage 2 b).1 with
           | none => (b.length, none)
           | some e => (0, some e)) := by
  obtain ⟨⟨inb, we, wc⟩⟩ := c
  cases we with
  | nil => simp [WebSocketConn.Write, WSConn.WriteMessage]
  | cons e rest =>
    cases e with
    | none => simp [WebSocketConn.Write, WSConn.WriteMessage]
    | some e => simp [WebSocketConn.Write, WSConn.WriteMessage]

/-- What `copy` does when the destination is at least as long as the source:
all of the source is copied to the front, the rest of the destination stays. -/
theorem copy_of_le (dst src : List Byte) (h : src.length ≤ dst.length) :
    copy dst src = (src.length, src ++ dst.drop src.length) := by
  simp [copy, List.take_of_length_le h, Nat.min_eq_right h]

/-- C6. A pending message is delivered intact when the buffer is large enough:
when the next pending inbound result that is not a keepalive is the non-empty
message m, and len(b) is at least len(m), `Read(b)` returns (len(m), nil), the
buffer afterwards starts with m, keeps its length and keeps its bytes beyond
len(m), and the message is consumed. -/
theorem C6_read_delivers_message_intact (ks : List Message)
    (hks : ∀ k ∈ ks, k.isKeepalive = true) (mt : Int) (m : List Byte) (rest : List Message)
    (we : List (Option Error)) (wc : List (Int × List Byte)) (b : List Byte)
    (hm : m ≠ []) (hb : m.length ≤ b.length) :
    WebSocketConn.Read
        { ws := { inbound := ks ++ ⟨mt, m, none⟩ :: rest, writeErrs := we, writeCalls := wc } } b
      = some (.ret m.length none (m ++ b.drop m.length)
          { ws := { inbound := rest, writeErrs := we, writeCalls := wc } })
    ∧ (m ++ b.drop m.length).take m.length = m
    ∧ (m ++ b.drop m.length).drop m.length = b.drop m.length
    ∧ (m ++ b.drop m.length).length = b.length := by
  refine ⟨?_, by simp, by simp, by simp; omega⟩
  induction ks with
  | nil =>
    rw [List.nil_append, Read_cons_msg mt m hm, copy_of_le b m hb]
  | cons k ks ih =>
    obtain ⟨kt, kp, kerr⟩ := k
    have hk := hks ⟨kt, kp, kerr⟩ (List.mem_cons_self _ _)
    simp only [Message.isKeepalive, Bool.and_eq_true, Option.isNone_iff_eq_none,
      List.isEmpty_iff] at hk
    obtain ⟨h1, h2⟩ := hk
    subst h1; subst h2
    rw [List.cons_append, Read_cons_empty]
    exact ih (fun k hk => hks k (List.mem_cons_of_mem _ hk))

/-- Witness for C6: the test of the repository, the message "hello" read into a
buffer of its own length, here after one keepalive. -/
theorem C6_read_delivers_message_intact_witness :
    WebSocketConn.Read
        { ws := { inbound := [⟨2, [], none⟩] ++ ⟨2, [104, 101, 108, 108, 111], none⟩ :: [],
                  writeErrs := [], writeCalls := [] } } [0, 0, 0, 0, 0]
      = some (.ret 5 none ([104, 101, 108, 108, 111] ++ List.drop 5 [0, 0, 0, 0, 0])
          { ws := { inbound := [], writeErrs := [], writeCalls := [] } }) :=
  (C6_read_delivers_message_intact [⟨2, [], none⟩] (by decide) 2 [104, 101, 108, 108, 111] []
    [] [] [0, 0, 0, 0, 0] (by decide) (by decide)).1

/-! ## Properties of wsrpc.go -/

/-- On an endpoint whose shutdown channel is closed, `Close` returns nil and
changes nothing. -/
theorem Close_of_closed (w : WSRPC) (hmu : w.mu = false) (hc : w.closeChan.closed = true) :
    w.Close = .ret none w := by
  obtain ⟨mu, session, rpcServer, rpcClient, closeChan, acceptLoops⟩ := w
  simp only at hmu hc
  subst hmu
  simp [WSRPC.Close, hc]

/-- On an endpoint whose shutdown channel is open, `Close` returns what
`session.Close()` returns, after closing the channel, closing the RPC client
if there is one, and closing the session, each once. -/
theorem Close_of_open (w : WSRPC) (hmu : w.mu = false) (hc : w.closeChan.closed = false) :
    w.Close = .ret w.session.Close.1
      { w with
        closeChan := { closed := true, closes := w.closeChan.closes + 1 }
        rpcClient := w.rpcClient.map (fun c => c.Close.2)
        session := w.session.Close.2 } := by
  obtain ⟨mu, session, rpcServer, rpcClient, closeChan, acceptLoops⟩ := w
  simp only at hmu hc
  subst hmu
  cases rpcClient <;> simp [WSRPC.Close, Chan.close, hc]

/-- Calling `Close` any number of times on an endpoint on which `Close`
returns nil and changes nothing: every call returns nil, nothing changes. -/
theorem closeTimes_of_fixed (w : WSRPC) (h : w.Close = .ret none w) (n : Nat) :
    closeTimes n w = .ret (List.replicate n none) w := by
  induction n with
  | zero => rfl
  | succ n ih => simp [closeTimes, h, ih, List.replicate_succ]

/-- C1. Close is idempotent. On an endpoint whose lock is free and whose
shutdown channel has been closed once if it is closed and never if it is open
(as on every endpoint a constructor returns), n + 1 calls of `Close` in
sequence all return, none panics, and they leave the endpoint exactly as the
first call leaves it: the first call returns some e, every later call returns
nil and changes nothing (so it touches neither the RPC client nor the
session), and afterwards the channel exposed by `Done` is closed and has been
closed exactly once. -/
theorem C1_close_idempotent (w : WSRPC) (n : Nat) (hmu : w.mu = false)
    (hch : w.closeChan.closes = if w.closeChan.closed then 1 else 0) :
    ∃ e w1, w.Close = .ret e w1
      ∧ w1.Close = .ret none w1
      ∧ closeTimes (n + 1) w = .ret (e :: List.replicate n none) w1
      ∧ w1.Done.closed = true
      ∧ w1.Done.closes = 1 := by
  cases hc : w.closeChan.closed with
  | true =>
    have h1 := Close_of_closed w hmu hc
    refine ⟨none, w, h1, h1, ?_, hc, ?_⟩
    · simp [closeTimes, h1, closeTimes_of_fixed w h1 n]
    · simpa [WSRPC.Done, hc] using hch
  | false =>
    have h1 := Close_of_open w hmu hc
    have h2 := Close_of_closed
      { w with
        closeChan := { closed := true, closes := w.closeChan.closes + 1 }
        rpcClient := w.rpcClient.map (fun c => c.Close.2)
        session := w.session.Close.2 } hmu rfl
    refine ⟨_, _, h1, h2, ?_, rfl, ?_⟩
    · simp [closeTimes, h1, closeTimes_of_fixed _ h2 n]
    · simp [WSRPC.Done, hc] at hch ⊢
      exact hch

/-- The constructor `NewServer` on `goodConn` returns `goodEndpoint`. -/
theorem NewServer_goodConn :
    NewServer goodConn = { wsrpc := some goodEndpoint, err := none, obj := some goodEndpoint } := by
  decide

/-- Witness for C1: three calls of `Close` on the endpoint `NewServer` returns
on `goodConn`; the first returns the session's error, the others nil. -/
theorem C1_close_idempotent_witness :
    ∃ e w1, goodEndpoint.Close = .ret e w1
      ∧ w1.Close = .ret none w1
      ∧ closeTimes (2 + 1) goodEndpoint = .ret (e :: List.replicate 2 none) w1
      ∧ w1.Done.closed = true
      ∧ w1.Done.closes = 1 :=
  C1_close_idempotent goodEndpoint 2 (by decide) (by decide)

/-- C7. Construction failure is fatal and cleans up. In `NewServer` and in
`NewClient`: when yamux fails to create the session with error e, the
constructor returns (nil, e) and allocates nothing; when the session s is
created and `s.Open()` fails with error e, the constructor returns (nil, e),
and the endpoint object it leaves behind holds the session after exactly one
more `Close()` call, with no RPC client. -/
theorem C7_construction_failure (conn : Conn) :
    (∀ e, conn.server = .err e →
        NewServer conn = { wsrpc := none, err := some e, obj := none })
    ∧ (∀ s e, conn.server = .session s → s.openResult = .err e →
        (NewServer conn).wsrpc = none ∧ (NewServer conn).err = some e
        ∧ ∃ w, (NewServer conn).obj = some w ∧ w.session = s.Close.2
            ∧ w.session.closeCalls = s.closeCalls + 1 ∧ w.rpcClient = none)
    ∧ (∀ e, conn.client = .err e →
        NewClient conn = { wsrpc := none, err := some e, obj := none })
    ∧ (∀ s e, conn.client = .session s → s.openResult = .err e →
        (NewClient conn).wsrpc = none ∧ (NewClient conn).err = some e
        ∧ ∃ w, (NewClient conn).obj = some w ∧ w.session = s.Close.2
            ∧ w.session.closeCalls = s.closeCalls + 1 ∧ w.rpcClient = none) := by
  have hclose : ∀ s : Session, s.Close.2.closeCalls = s.closeCalls + 1 := by
    intro s
    obtain ⟨o, a, cr, cc⟩ := s
    cases cr <;> simp [Session.Close]
  refine ⟨?_, ?_, ?_, ?_⟩
  · intro e h
    simp [NewServer, h]
  · intro s e h ho
    simp [NewServer, h, Session.Open, ho, hclose]
  · intro e h
    simp [NewClient, h]
  · intro s e h ho
    simp [NewClient, h, Session.Open, ho, hclose]

/-- Witness for C7: on `failingConn` the session is created and `Open` fails;
on `goodConn` the client session cannot be created. -/
theorem C7_construction_failure_witness :
    NewClient goodConn = { wsrpc := none, err := some "dial failed", obj := none }
    ∧ ((NewServer failingConn).wsrpc = none
        ∧ (NewServer failingConn).err = some "remote end is not accepting connections"
        ∧ ∃ w, (NewServer failingConn).obj = some w
            ∧ w.session =
                (Session.Close
                  { openResult := .err "remote end is not accepting connections",
                    acceptResults := [.err "session shutdown"], closeResults := [],
                    closeCalls := 0 }).2
            ∧ w.session.closeCalls = 0 + 1 ∧ w.rpcClient = none) :=
  ⟨(C7_construction_failure goodConn).2.2.1 "dial failed" rfl,
   (C7_construction_failure failingConn).2.1
      { openResult := .err "remote end is not accepting connections",
        acceptResults := [.err "session shutdown"], closeResults := [], closeCalls := 0 }
      "remote end is not accepting connections" rfl rfl⟩

/-- C2. Evaluation at the failing input: on `failingConn`, `NewServer` (and
`NewClient` alike) creates the session, starts the accept loop, fails to open
the outbound stream, calls `session.Close()` itself and returns nil, leaving
the shutdown channel open. The accept loop then gets the error from `Accept`,
finds the channel open and calls `Close`, which calls `session.Close()` again:
the session's `Close` has been invoked twice. -/
theorem C2_session_closed_twice_when_open_fails :
    NewServer failingConn
        = { wsrpc := none, err := some "remote end is not accepting connections",
            obj := some failedEndpoint }
    ∧ NewClient failingConn
        = { wsrpc := none, err := some "remote end is not accepting connections",
            obj := some failedEndpoint }
    ∧ failedEndpoint.session.closeCalls = 1
    ∧ failedEndpoint.closeChan.closed = false
    ∧ ∃ w, failedEndpoint.acceptStreams = some (.returned w)
        ∧ w.session.closeCalls = 2 ∧ w.closeChan.closes = 1 := by
  refine ⟨by decide, by decide, by decide, by decide, ?_⟩
  exact ⟨_, rfl, by decide, by decide⟩

/-- The accept loop on an endpoint whose next `Accept` results are the streams
`sts`: after as many iterations each stream has got its `ServeConn` task and
the loop goes on with the results that follow. -/
theorem acceptLoop_streams (sts : List Stream) :
    ∀ (fuel : Nat) (w : WSRPC) (tail : List StreamResult),
      w.session.acceptResults = sts.map StreamResult.stream ++ tail →
      acceptLoop (fuel + sts.length) w
        = acceptLoop fuel
            { w with
              session := { w.session with acceptResults := tail }
              rpcServer := { w.rpcServer with serving := w.rpcServer.serving ++ sts } } := by
  induction sts with
  | nil =>
    intro fuel w tail h
    obtain ⟨mu, ⟨o, a, cr, cc⟩, ⟨srv, reg⟩, rpcClient, closeChan, acceptLoops⟩ := w
    simp only [List.map_nil, List.nil_append] at h
    subst h
    simp
  | cons st sts ih =>
    intro fuel w tail h
    obtain ⟨mu, ⟨o, a, cr, cc⟩, ⟨srv, reg⟩, rpcClient, closeChan, acceptLoops⟩ := w
    simp only [List.map_cons, List.cons_append] at h
    subst h
    rw [List.length_cons, ← Nat.add_assoc]
    simp only [acceptLoop, Session.Accept, RpcServer.goServeConn]
    rw [ih fuel _ tail rfl]
    simp

/-- The accept loop run on its own up to the first error of `Accept`: the
streams before the error are dispatched, then the shutdown channel decides. -/
theorem acceptStreams_of_error (w : WSRPC) (sts : List Stream) (e : Error)
    (rest : List StreamResult)
    (h : w.session.acceptResults = sts.map StreamResult.stream ++ StreamResult.err e :: rest) :
    w.acceptStreams =
      if w.closeChan.closed then some (.returned (w.afterAccepts sts rest))
      else
        match (w.afterAccepts sts rest).Close with
        | .blocked => some (.waitingLock (w.afterAccepts sts rest))
        | .panicked => some .panicked
        | .ret _ w2 => some (.returned w2) := by
  have hlen : w.session.acceptResults.length + 1 = (rest.length + 2) + sts.length := by
    rw [h]
    simp
    omega
  rw [WSRPC.acceptStreams, hlen, acceptLoop_streams sts (rest.length + 2) w _ h]
  simp [acceptLoop, Session.Accept, WSRPC.afterAccepts]

/-- One `session.Close()` call counts as one. -/
theorem Session.closeCalls_Close (s : Session) : s.Close.2.closeCalls = s.closeCalls + 1 := by
  obtain ⟨o, a, cr, cc⟩ := s
  cases cr <;> simp [Session.Close]

/-- A waiting call that returns releases the lock and leaves the shutdown
channel as it is. -/
theorem CallFinish_ret (w : WSRPC) (seq : Nat) (err : Option Error) (r : Value) :
    ∃ w2, w.CallFinish seq err r = .ret err r w2 ∧ w2.mu = false
      ∧ w2.closeChan = w.closeChan ∧ w2.session = w.session := by
  obtain ⟨mu, session, rpcServer, rpcClient, closeChan, acceptLoops⟩ := w
  cases rpcClient <;> exact ⟨_, rfl, rfl, rfl, rfl⟩

/-- C8, as stated, fails: on the endpoint `NewServer` returns on `goodConn`, a
call of "TestService.Add" writes its request and waits for the response with
the endpoint lock held (`waitingEndpoint`). The accept loop then takes the
streams 2 and 3 and the error of `Accept`, finds the shutdown channel open and
calls `Close`, which waits for the lock: the loop has not returned, the channel
exposed by `Done` is still open and the session has not been closed. -/
theorem C8_loop_waits_while_call_holds_lock :
    NewServer goodConn = { wsrpc := some goodEndpoint, err := none, obj := some goodEndpoint }
    ∧ goodEndpoint.CallStart "TestService.Add" [5, 7] [0] = .waiting waitingEndpoint
    ∧ waitingEndpoint.acceptStreams
        = some (.waitingLock (waitingEndpoint.afterAccepts [2, 3] []))
    ∧ (waitingEndpoint.afterAccepts [2, 3] []).Done.closed = false
    ∧ (waitingEndpoint.afterAccepts [2, 3] []).session.closeCalls = 0
    ∧ ¬ (∃ w, waitingEndpoint.acceptStreams = some (.returned w)) := by
  refine ⟨by decide, by decide, by decide, by decide, by decide, ?_⟩
  rintro ⟨w, hw⟩
  have hb : waitingEndpoint.acceptStreams
      = some (.waitingLock (waitingEndpoint.afterAccepts [2, 3] [])) := by decide
  rw [hb] at hw
  cases hw

/-- C8, amended. Accept-loop failure triggers shutdown once, as soon as the
endpoint lock allows. On a run of `acceptStreams` in which `Accept` gives the
streams `sts` and then its first error, the loop hands each stream of `sts` to
one `ServeConn` task, in order, and calls `Accept` no more (the results `rest`
stay pending). If the shutdown channel is closed at that moment the loop
returns and the endpoint is otherwise untouched: `Close` is not called. If the
channel is open the loop calls `Close`. With the lock free `Close` returns,
the loop returns, and the channel exposed by `Done` is closed, the session
closed once more. With the lock held by a waiting call the loop waits for the
lock inside `Close`, with the channel still open and the session not closed;
once that call has returned, `Close` returns with the channel closed. -/
theorem C8_accept_failure_triggers_shutdown (w : WSRPC) (sts : List Stream) (e : Error)
    (rest : List StreamResult)
    (h : w.session.acceptResults = sts.map StreamResult.stream ++ StreamResult.err e :: rest) :
    (w.afterAccepts sts rest).rpcServer.serving = w.rpcServer.serving ++ sts
    ∧ (w.closeChan.closed = true →
        w.acceptStreams = some (.returned (w.afterAccepts sts rest)))
    ∧ (w.closeChan.closed = false → w.mu = false →
        ∃ e2 w2, (w.afterAccepts sts rest).Close = .ret e2 w2
          ∧ w.acceptStreams = some (.returned w2)
          ∧ w2.Done.closed = true
          ∧ w2.Done.closes = w.closeChan.closes + 1
          ∧ w2.session.closeCalls = w.session.closeCalls + 1
          ∧ w2.session.acceptResults = rest
          ∧ w2.rpcServer.serving = w.rpcServer.serving ++ sts)
    ∧ (w.closeChan.closed = false → w.mu = true →
        w.acceptStreams = some (.waitingLock (w.afterAccepts sts rest))
        ∧ (w.afterAccepts sts rest).Done.closed = false
        ∧ (w.afterAccepts sts rest).session.closeCalls = w.session.closeCalls
        ∧ ∀ seq err r, ∃ w2 e3 w3,
            (w.afterAccepts sts rest).CallFinish seq err r = .ret err r w2
            ∧ w2.Close = .ret e3 w3 ∧ w3.Done.closed = true
            ∧ w3.session.closeCalls = w.session.closeCalls + 1) := by
  have hacc := acceptStreams_of_error w sts e rest h
  refine ⟨rfl, ?_, ?_, ?_⟩
  · intro hc
    rw [hacc, hc]
    rfl
  · intro hc hmu
    have hclose := Close_of_open (w.afterAccepts sts rest) hmu hc
    refine ⟨_, _, hclose, ?_, rfl, rfl, ?_, ?_, rfl⟩
    · rw [hacc, hc, hclose]
      rfl
    · obtain ⟨mu, ⟨o, a, cr, cc⟩, ⟨srv, reg⟩, rpcClient, closeChan, acceptLoops⟩ := w
      cases cr <;> simp [WSRPC.afterAccepts, Session.Close]
    · obtain ⟨mu, ⟨o, a, cr, cc⟩, ⟨srv, reg⟩, rpcClient, closeChan, acceptLoops⟩ := w
      cases cr <;> simp [WSRPC.afterAccepts, Session.Close]
  · intro hc hmu
    have hblocked : (w.afterAccepts sts rest).Close = .blocked := by
      simp [WSRPC.Close, WSRPC.afterAccepts, hmu]
    refine ⟨by rw [hacc, hc, hblocked]; rfl, hc, rfl, ?_⟩
    intro seq err r
    obtain ⟨w2, hfin, hmu2, hch2, hs2⟩ := CallFinish_ret (w.afterAccepts sts rest) seq err r
    have hc2 : w2.closeChan.closed = false := by rw [hch2]; exact hc
    refine ⟨w2, _, _, hfin, Close_of_open w2 hmu2 hc2, rfl, ?_⟩
    show w2.session.Close.2.closeCalls = w.session.closeCalls + 1
    rw [Session.closeCalls_Close, hs2]
    rfl

/-- Witness for C8, amended. On `goodEndpoint` the accept loop takes the
streams 2 and 3, then the error; the channel is open and the lock free, so the
loop closes the endpoint. On `waitingEndpoint` the lock is held by a waiting
call, so the loop waits inside `Close`. -/
theorem C8_accept_failure_triggers_shutdown_witness :
    (∃ e2 w2, (goodEndpoint.afterAccepts [2, 3] []).Close = .ret e2 w2
      ∧ goodEndpoint.acceptStreams = some (.returned w2)
      ∧ w2.Done.closed = true
      ∧ w2.Done.closes = goodEndpoint.closeChan.closes + 1
      ∧ w2.session.closeCalls = goodEndpoint.session.closeCalls + 1
      ∧ w2.session.acceptResults = []
      ∧ w2.rpcServer.serving = goodEndpoint.rpcServer.serving ++ [2, 3])
    ∧ (waitingEndpoint.acceptStreams
          = some (.waitingLock (waitingEndpoint.afterAccepts [2, 3] []))
        ∧ (waitingEndpoint.afterAccepts [2, 3] []).Done.closed = false
        ∧ (waitingEndpoint.afterAccepts [2, 3] []).session.closeCalls
            = waitingEndpoint.session.closeCalls
        ∧ ∀ seq err r, ∃ w2 e3 w3,
            (waitingEndpoint.afterAccepts [2, 3] []).CallFinish seq err r = .ret err r w2
            ∧ w2.Close = .ret e3 w3 ∧ w3.Done.closed = true
            ∧ w3.session.closeCalls = waitingEndpoint.session.closeCalls + 1) :=
  ⟨(C8_accept_failure_triggers_shutdown goodEndpoint [2, 3] "EOF" [] (by decide)).2.2.1
      (by decide) (by decide),
   (C8_accept_failure_triggers_shutdown waitingEndpoint [2, 3] "EOF" [] (by decide)).2.2.2
      (by decide) (by decide)⟩

/-- C9. Usage errors return immediately: on an endpoint whose RPC client is nil
and whose lock is free, `Call` with any method name, arguments and reply, and
whatever the peer would answer, returns the error "rpc client is not
initialized" without waiting; the reply is the one passed in and the endpoint
is unchanged, so nothing has been sent. -/
theorem C9_call_uninitialized (w : WSRPC) (serviceMethod : String) (args reply : Value)
    (resp : Option (Option Error × Value)) (hnil : w.rpcClient = none) (hmu : w.mu = false) :
    w.Call serviceMethod args reply resp
      = .ret (some "rpc client is not initialized") reply w := by
  obtain ⟨mu, session, rpcServer, rpcClient, closeChan, acceptLoops⟩ := w
  simp only at hnil hmu
  subst hnil; subst hmu
  simp [WSRPC.Call, WSRPC.CallStart]

/-- Witness for C9: the endpoint object left behind by a failed construction
has no RPC client. -/
theorem C9_call_uninitialized_witness :
    failedEndpoint.Call "TestService.Add" [5, 7] [0] (some (none, [12]))
      = .ret (some "rpc client is not initialized") [0] failedEndpoint :=
  C9_call_uninitialized failedEndpoint "TestService.Add" [5, 7] [0] (some (none, [12]))
    (by decide) (by decide)

/-- C10, as stated, fails: on `goodEndpoint` a call of "TestService.Add" with
5 and 7 writes its request and waits for the response, which leaves
the endpoint as `waitingEndpoint`, with the endpoint lock held. While it waits, a
second `Call` (whatever the peer would answer) waits for the lock and writes no
request, and `Close` waits for the lock too, so it cannot abort the pending
call. -/
theorem C10_lock_held_while_waiting :
    goodEndpoint.CallStart "TestService.Add" [5, 7] [0] = .waiting waitingEndpoint
    ∧ waitingEndpoint.mu = true
    ∧ waitingEndpoint.Call "TestService.Add" [10, 15] [0] (some (none, [25])) = .blocked
    ∧ ¬ (∃ w, waitingEndpoint.CallStart "TestService.Add" [10, 15] [0] = .waiting w)
    ∧ waitingEndpoint.Close = .blocked := by
  refine ⟨by decide, by decide, by decide, ?_, by decide⟩
  rintro ⟨w, hw⟩
  have hb : waitingEndpoint.CallStart "TestService.Add" [10, 15] [0] = .blocked := by decide
  rw [hb] at hw
  cases hw

/-- C10, amended. Calls on one endpoint are serialized for their whole
duration. On an endpoint whose lock is free and whose RPC client c is not
closing, `Call` takes the lock, writes its request through the client and
waits for the response with the lock held. While it waits, every other `Call`
on the endpoint waits for the lock, whatever the peer would answer, so no
second request is written; `Close` waits for the lock as well. The lock is
released when the waiting call returns. -/
theorem C10_calls_fully_serialized (w : WSRPC) (c : Client) (serviceMethod : String)
    (args reply : Value) (hmu : w.mu = false) (hc : w.rpcClient = some c)
    (hcl : c.closing = false) :
    ∃ w1, w.CallStart serviceMethod args reply = .waiting w1
      ∧ w1.rpcClient = some (c.send serviceMethod args)
      ∧ w1.mu = true
      ∧ (∀ m2 a2 r2 resp, w1.Call m2 a2 r2 resp = .blocked)
      ∧ w1.Close = .blocked
      ∧ (∀ err r, ∃ w2, w1.CallFinish c.seq err r = .ret err r w2 ∧ w2.mu = false)
      ∧ (∀ err r, ∃ w2, w.Call serviceMethod args reply (some (err, r)) = .ret err r w2
          ∧ w2.mu = false) := by
  obtain ⟨mu, session, rpcServer, rpcClient, closeChan, acceptLoops⟩ := w
  simp only at hmu hc
  subst hmu; subst hc
  refine ⟨_, by simp [WSRPC.CallStart, hcl]; rfl, rfl, rfl, ?_, ?_, ?_, ?_⟩
  · intro m2 a2 r2 resp
    simp [WSRPC.Call, WSRPC.CallStart]
  · simp [WSRPC.Close]
  · intro err r
    exact ⟨_, rfl, rfl⟩
  · intro err r
    simp only [WSRPC.Call, WSRPC.CallStart, hcl]
    exact ⟨_, rfl, rfl⟩

/-- Witness for C10, amended: `goodEndpoint`, whose lock is free and whose
client is the fresh client on stream 1. -/
theorem C10_calls_fully_serialized_witness :
    ∃ w1, goodEndpoint.CallStart "TestService.Add" [5, 7] [0] = .waiting w1
      ∧ w1.rpcClient = some ((Client.new 1).send "TestService.Add" [5, 7])
      ∧ w1.mu = true
      ∧ (∀ m2 a2 r2 resp, w1.Call m2 a2 r2 resp = .blocked)
      ∧ w1.Close = .blocked
      ∧ (∀ err r, ∃ w2, w1.CallFinish (Client.new 1).seq err r = .ret err r w2 ∧ w2.mu = false)
      ∧ (∀ err r, ∃ w2,
          goodEndpoint.Call "TestService.Add" [5, 7] [0] (some (err, r)) = .ret err r w2
          ∧ w2.mu = false) :=
  C10_calls_fully_serialized goodEndpoint (Client.new 1) "TestService.Add" [5, 7] [0]
    (by decide) (by decide) (by decide)

/-! ## Invariants of the endpoint under any order of operations -/

/-- The endpoint a constructor returns has a free lock, a fresh shutdown
channel and an RPC client, and satisfies the invariant. -/
theorem built_endpoint (conn : Conn) (w : WSRPC)
    (h : (NewServer conn).wsrpc = some w ∨ (NewClient conn).wsrpc = some w) :
    w.mu = false ∧ w.closeChan = Chan.make ∧ w.rpcClient.isSome = true
      ∧ w.Inv w.session.closeCalls := by
  have key : ∀ r : SessionResult,
      (match r with
        | .err e => ({ wsrpc := none, err := some e, obj := none } : Built)
        | .session session =>
          match (Session.Open session) with
          | (.err e, s1) =>
            { wsrpc := none, err := some e,
              obj := some { mu := false, session := s1.Close.2, rpcServer := RpcServer.new,
                            rpcClient := none, closeChan := Chan.make, acceptLoops := 0 + 1 } }
          | (.stream stream, s1) =>
            { wsrpc := some { mu := false, session := s1, rpcServer := RpcServer.new,
                              rpcClient := some (Client.new stream), closeChan := Chan.make,
                              acceptLoops := 0 + 1 },
              err := none,
              obj := some { mu := false, session := s1, rpcServer := RpcServer.new,
                            rpcClient := some (Client.new stream), closeChan := Chan.make,
                            acceptLoops := 0 + 1 } }).wsrpc = some w →
      w.mu = false ∧ w.closeChan = Chan.make ∧ w.rpcClient.isSome = true
        ∧ w.Inv w.session.closeCalls := by
    intro r hr
    cases r with
    | err e => simp at hr
    | session s =>
      obtain ⟨o, a, cr, cc⟩ := s
      cases o with
      | err e => simp [Session.Open] at hr
      | stream st =>
        simp [Session.Open] at hr
        subst hr
        simp [WSRPC.Inv, Chan.make]
  rcases h with h | h
  · exact key conn.server (by simpa [NewServer] using h)
  · exact key conn.client (by simpa [NewClient] using h)

/-- The method `Close` keeps the invariant. -/
theorem Inv_Close (w : WSRPC) (k : Nat) (e : Option Error) (w1 : WSRPC) (hinv : w.Inv k)
    (h : w.Close = .ret e w1) : w1.Inv k := by
  cases hmu : w.mu with
  | true => simp [WSRPC.Close, hmu] at h
  | false =>
    cases hc : w.closeChan.closed with
    | true =>
      rw [Close_of_closed w hmu hc] at h
      simp only [Outcome.ret.injEq] at h
      rw [← h.2]
      exact hinv
    | false =>
      rw [Close_of_open w hmu hc] at h
      simp only [Outcome.ret.injEq] at h
      rw [← h.2]
      obtain ⟨h1, h2, _⟩ := hinv
      simp only [hc, Bool.false_eq_true, if_false] at h1
      refine ⟨by simp [h1], ?_, by simp [hmu]⟩
      simp only [Session.closeCalls_Close, h2, h1]

/-- A run of the accept loop keeps the invariant, however it ends. -/
theorem Inv_acceptLoop (k : Nat) :
    ∀ (fuel : Nat) (w : WSRPC), w.Inv k →
      (∀ w1, acceptLoop fuel w = some (.returned w1) → w1.Inv k)
      ∧ (∀ w1, acceptLoop fuel w = some (.waitingAccept w1) → w1.Inv k)
      ∧ (∀ w1, acceptLoop fuel w = some (.waitingLock w1) → w1.Inv k) := by
  intro fuel
  induction fuel with
  | zero => intro w _; simp [acceptLoop]
  | succ fuel ih =>
    intro w hinv
    obtain ⟨mu, ⟨o, a, cr, cc⟩, ⟨srv, reg⟩, rpcClient, closeChan, acceptLoops⟩ := w
    cases a with
    | nil =>
      refine ⟨?_, ?_, ?_⟩ <;> intro w1 h <;> simp [acceptLoop, Session.Accept] at h
      rw [← h]; exact hinv
    | cons r rest =>
      cases r with
      | stream st =>
        simp only [acceptLoop, Session.Accept]
        exact ih _ hinv
      | err e =>
        have hinv1 :
            WSRPC.Inv
              { mu := mu,
                session := { openResult := o, acceptResults := rest, closeResults := cr,
                             closeCalls := cc },
                rpcServer := { serving := srv, registry := reg }, rpcClient := rpcClient,
                closeChan := closeChan, acceptLoops := acceptLoops } k := hinv
        simp only [acceptLoop, Session.Accept]
        cases hc : closeChan.closed with
        | true =>
          refine ⟨?_, ?_, ?_⟩ <;> intro w1 h <;> simp at h
          rw [← h]; exact hinv1
        | false =>
          simp only [Bool.false_eq_true, if_false]
          generalize hcl :
            WSRPC.Close
              { mu := mu,
                session := { openResult := o, acceptResults := rest, closeResults := cr,
                             closeCalls := cc },
                rpcServer := { serving := srv, registry := reg }, rpcClient := rpcClient,
                closeChan := closeChan, acceptLoops := acceptLoops } = out
          cases out with
          | blocked =>
            refine ⟨?_, ?_, ?_⟩ <;> intro w1 h <;> simp at h
            rw [← h]; exact hinv1
          | panicked =>
            refine ⟨?_, ?_, ?_⟩ <;> intro w1 h <;> simp at h
          | ret e2 w2 =>
            refine ⟨?_, ?_, ?_⟩ <;> intro w1 h <;> simp at h
            rw [← h]; exact Inv_Close _ k e2 w2 hinv1 hcl

/-- Every operation keeps the invariant. -/
theorem Inv_after (w : WSRPC) (k : Nat) (op : Op) (hinv : w.Inv k) : (w.after op).Inv k := by
  cases op with
  | close =>
    simp only [WSRPC.after]
    cases h : w.Close with
    | blocked => exact hinv
    | panicked => exact hinv
    | ret e w1 => exact Inv_Close w k e w1 hinv h
  | acceptStreams =>
    simp only [WSRPC.after]
    have hl := Inv_acceptLoop k (w.session.acceptResults.length + 1) w hinv
    cases h : w.acceptStreams with
    | none => exact hinv
    | some out =>
      cases out with
      | returned w1 => exact hl.1 w1 h
      | waitingAccept w1 => exact hl.2.1 w1 h
      | waitingLock w1 => exact hl.2.2 w1 h
      | panicked => exact hinv
  | callStart serviceMethod args reply =>
    obtain ⟨mu, session, rpcServer, rpcClient, closeChan, acceptLoops⟩ := w
    obtain ⟨h1, h2, h3⟩ := hinv
    cases mu with
    | true => simpa [WSRPC.after, WSRPC.CallStart] using ⟨h1, h2, h3⟩
    | false =>
      cases rpcClient with
      | none => simpa [WSRPC.after, WSRPC.CallStart, WSRPC.Inv] using ⟨h1, h2⟩
      | some c =>
        cases hcl : c.closing with
        | true => simpa [WSRPC.after, WSRPC.CallStart, WSRPC.Inv, hcl] using ⟨h1, h2⟩
        | false => simpa [WSRPC.after, WSRPC.CallStart, WSRPC.Inv, hcl] using ⟨h1, h2⟩
  | callFinish seq err reply =>
    obtain ⟨mu, session, rpcServer, rpcClient, closeChan, acceptLoops⟩ := w
    obtain ⟨h1, h2, h3⟩ := hinv
    cases mu with
    | false => simpa [WSRPC.after] using ⟨h1, h2, h3⟩
    | true =>
      cases rpcClient with
      | none => simpa [WSRPC.after, WSRPC.CallFinish, WSRPC.Inv] using ⟨h1, h2⟩
      | some c => simpa [WSRPC.after, WSRPC.CallFinish, WSRPC.Inv] using ⟨h1, h2⟩

/-- Every sequence of operations keeps the invariant. -/
theorem Inv_afterAll (ops : List Op) : ∀ (w : WSRPC) (k : Nat), w.Inv k → (w.afterAll ops).Inv k := by
  induction ops with
  | nil => intro w k h; exact h
  | cons op ops ih =>
    intro w k h
    exact ih (w.after op) k (Inv_after w k op h)

/-- On an endpoint a constructor has returned, whatever operations follow in
whatever order: the session's `Close` is invoked at most once, the shutdown
channel is closed at most once, and the lock is free whenever the endpoint has
no RPC client. -/
theorem built_endpoint_single_teardown (conn : Conn) (w : WSRPC) (ops : List Op)
    (h : (NewServer conn).wsrpc = some w ∨ (NewClient conn).wsrpc = some w) :
    (w.afterAll ops).session.closeCalls ≤ w.session.closeCalls + 1
      ∧ (w.afterAll ops).closeChan.closes ≤ 1
      ∧ ((w.afterAll ops).rpcClient = none → (w.afterAll ops).mu = false) := by
  obtain ⟨h1, h2, h3⟩ := Inv_afterAll ops w _ (built_endpoint conn w h).2.2.2
  refine ⟨?_, ?_, ?_⟩
  · rw [h2, h1]; split <;> omega
  · rw [h1]; split <;> omega
  · intro hnil
    cases hmu : (w.afterAll ops).mu with
    | false => rfl
    | true => simp [hnil] at h3; exact absurd hmu (by simp [h3])

/-! ## Properties of the round trip of a call -/

/-- A result that fits a Go `int` is not changed by wrapping. -/
theorem wrapInt_of_fits (x : Int) (h1 : -2 ^ 63 ≤ x) (h2 : x < 2 ^ 63) : wrapInt x = x := by
  unfold wrapInt
  omega

/-- The handler `TestService.Add` of the test sets Sum to A + B as Go computes
it, which is the sum itself whenever the sum fits a Go `int`. -/
theorem testCode_add (a b : Int) :
    testCode "TestService.Add" [a, b] = (none, [wrapInt (a + b)])
      ∧ (-2 ^ 63 ≤ a + b → a + b < 2 ^ 63 →
          testCode "TestService.Add" [a, b] = (none, [a + b])) := by
  have h : testCode "TestService.Add" [a, b] = (none, [wrapInt (a + b)]) := by
    simp [testCode, TestService.Add]
  exact ⟨h, fun h1 h2 => by rw [h, wrapInt_of_fits _ h1 h2]⟩

/-- A successful `Register` puts every qualified method name of the receiver
into the registry and changes nothing else of the endpoint. -/
theorem Register_registers (w w1 : WSRPC) (rcvr : Rcvr) (h : w.Register rcvr = (none, w1)) :
    (∀ m ∈ rcvr.qualified, m ∈ w1.rpcServer.registry)
      ∧ w1 = { w with rpcServer := { w.rpcServer with
                registry := w.rpcServer.registry ++ rcvr.qualified } } := by
  unfold WSRPC.Register RpcServer.Register at h
  split at h
  · simp at h
  · simp only [Prod.mk.injEq, true_and] at h
    subst h
    exact ⟨fun m hm => List.mem_append_right _ hm, rfl⟩

/-- The start of a call does not change what the Dispatch Engine of the same
endpoint answers: an endpoint goes on serving its peer while its own call
waits. -/
theorem dispatch_of_CallStart (y y1 : WSRPC) (serviceMethod : String) (args reply : Value)
    (h : y.CallStart serviceMethod args reply = .waiting y1) (code : Code) (stream : Stream)
    (req : Request) : y1.dispatch code stream req = y.dispatch code stream req := by
  obtain ⟨mu, session, rpcServer, rpcClient, closeChan, acceptLoops⟩ := y
  cases mu with
  | true => simp [WSRPC.CallStart] at h
  | false =>
    cases rpcClient with
    | none => simp [WSRPC.CallStart] at h
    | some c =>
      cases hcl : c.closing with
      | true => simp [WSRPC.CallStart, hcl] at h
      | false =>
        simp only [WSRPC.CallStart, hcl, Bool.false_eq_true, if_false,
          CallOutcome.waiting.injEq] at h
        subst h
        rfl

/-- The request a client has written last is the one of the call just
started, under the sequence number the client had. -/
theorem Client.sent_send (c : Client) (serviceMethod : String) (args : Value) :
    (c.send serviceMethod args).sent.getLast?
      = some { seq := c.seq, serviceMethod := serviceMethod, args := args } := by
  simp [Client.send]

/-- Writing a request does not change the stream of the client. -/
theorem Client.stream_send (c : Client) (serviceMethod : String) (args : Value) :
    (c.send serviceMethod args).stream = c.stream := rfl

/-- A call served by the peer. Let x have a free lock and an RPC client c that
is not closing, and let y be not shut down, serve the outbound stream of x and
have the method in its registry, where the handler returns nil and the reply
v. Then the round trip of the call on x returns nil with v decoded into the
reply of the caller, and the lock released; and it does so too while a call of
y itself is in flight in the opposite direction. -/
theorem roundTrip_served (x y : WSRPC) (code : Code) (c : Client) (serviceMethod : String)
    (args reply v : Value) (hmu : x.mu = false) (hc : x.rpcClient = some c)
    (hcl : c.closing = false) (hserve : c.stream ∈ y.rpcServer.serving)
    (hopen : y.closeChan.closed = false) (hreg : serviceMethod ∈ y.rpcServer.registry)
    (hcode : code serviceMethod args = (none, v)) :
    ∃ x2, roundTrip x y code serviceMethod args reply = .ret none (gobDecodeInto reply v) x2
      ∧ x2.mu = false
      ∧ (∀ m2 a2 r2 y1, y.CallStart m2 a2 r2 = .waiting y1 →
          roundTrip x y1 code serviceMethod args reply
            = .ret none (gobDecodeInto reply v) x2) := by
  have hdisp :
      y.dispatch code c.stream { seq := c.seq, serviceMethod := serviceMethod, args := args }
        = some { seq := c.seq, err := none, reply := some v } := by
    simp [WSRPC.dispatch, hopen, hserve, hreg, hcode]
  have hdisp1 : ∀ m2 a2 r2 y1, y.CallStart m2 a2 r2 = .waiting y1 →
      y1.dispatch code c.stream { seq := c.seq, serviceMethod := serviceMethod, args := args }
        = some { seq := c.seq, err := none, reply := some v } := by
    intro m2 a2 r2 y1 h
    rw [dispatch_of_CallStart y y1 m2 a2 r2 h, hdisp]
  obtain ⟨mu, session, rpcServer, rpcClient, closeChan, acceptLoops⟩ := x
  simp only at hmu hc
  subst hmu; subst hc
  have hstart :
      WSRPC.CallStart
          { mu := false, session := session, rpcServer := rpcServer, rpcClient := some c,
            closeChan := closeChan, acceptLoops := acceptLoops } serviceMethod args reply
        = .waiting
          { mu := true, session := session, rpcServer := rpcServer,
            rpcClient := some (c.send serviceMethod args),
            closeChan := closeChan, acceptLoops := acceptLoops } := by
    simp [WSRPC.CallStart, hcl]
  have hdel :
      WSRPC.deliver
          { mu := true, session := session, rpcServer := rpcServer,
            rpcClient := some (c.send serviceMethod args),
            closeChan := closeChan, acceptLoops := acceptLoops } reply
          { seq := c.seq, err := none, reply := some v }
        = .ret none (gobDecodeInto reply v)
          { mu := false, session := session, rpcServer := rpcServer,
            rpcClient := some
              { c.send serviceMethod args with
                pending := (c.send serviceMethod args).pending.erase c.seq },
            closeChan := closeChan, acceptLoops := acceptLoops } := by
    simp [WSRPC.deliver, WSRPC.CallFinish, Client.send]
  have hround :
      roundTrip
          { mu := false, session := session, rpcServer := rpcServer, rpcClient := some c,
            closeChan := closeChan, acceptLoops := acceptLoops } y code serviceMethod args reply
        = .ret none (gobDecodeInto reply v)
          { mu := false, session := session, rpcServer := rpcServer,
            rpcClient := some
              { c.send serviceMethod args with
                pending := (c.send serviceMethod args).pending.erase c.seq },
            closeChan := closeChan, acceptLoops := acceptLoops } := by
    simp only [roundTrip, hstart, Client.sent_send, Client.stream_send]
    rw [hdisp]
    exact hdel
  refine ⟨_, hround, rfl, ?_⟩
  intro m2 a2 r2 y1 h
  simp only [roundTrip, hstart, Client.sent_send, Client.stream_send]
  rw [hdisp1 m2 a2 r2 y1 h]
  exact hdel

/-- The accept loop on an endpoint whose pending `Accept` results are the
streams `sts` and nothing else: every stream gets its `ServeConn` task and the
loop waits in `Accept`. -/
theorem acceptStreams_of_streams (w : WSRPC) (sts : List Stream)
    (h : w.session.acceptResults = sts.map StreamResult.stream) :
    w.acceptStreams
      = some (.waitingAccept
          { w with
            session := { w.session with acceptResults := [] }
            rpcServer := { w.rpcServer with serving := w.rpcServer.serving ++ sts } }) := by
  have hlen : w.session.acceptResults.length + 1 = 1 + sts.length := by
    rw [h]
    simp
    omega
  rw [WSRPC.acceptStreams, hlen, acceptLoop_streams sts 1 w [] (by simpa using h)]
  simp [acceptLoop, Session.Accept]

/-- The qualified method name of the test service. -/
theorem testService_qualified : testService.qualified = ["TestService.Add"] := by
  decide

/-- What the test's preparation makes of an endpoint a constructor has built
on a session whose `Open` gives the stream `out` and whose `Accept` gives the
streams `sts`: the endpoint serves exactly `sts`, has "TestService.Add"
registered, holds a fresh RPC client on `out`, and is open with a free lock. -/
theorem prepared_of_session (b : Built) (w : WSRPC) (ss : Session) (out : Stream)
    (sts : List Stream) (hb : b.wsrpc = some w)
    (hw : w = { mu := false, session := ss, rpcServer := RpcServer.new,
                rpcClient := some (Client.new out), closeChan := Chan.make,
                acceptLoops := 0 + 1 })
    (hacc : ss.acceptResults = sts.map StreamResult.stream) :
    prepared b
      = some { mu := false, session := { ss with acceptResults := [] },
               rpcServer := { serving := sts, registry := ["TestService.Add"] },
               rpcClient := some (Client.new out), closeChan := Chan.make,
               acceptLoops := 0 + 1 } := by
  subst hw
  simp only [prepared, hb]
  rw [acceptStreams_of_streams _ sts hacc]
  simp [WSRPC.Register, RpcServer.Register, RpcServer.new, testService_qualified]

/-- The endpoints of the test are what the constructors, the accept loops and
`Register` make on the two sides of the connection. -/
theorem prepared_test_endpoints :
    prepared (NewServer serverConn) = some testServerEnd
      ∧ prepared (NewClient clientConn) = some testClientEnd := by
  exact ⟨by decide, by decide⟩

/-- C11, as stated, fails at two inputs on the endpoints of the test, which are
what `NewServer`, `NewClient`, the accept loops and `Register` make of the two
sides of the connection. A call with the largest Go `int` and 1 returns nil
with Sum equal to the smallest Go `int`, not to the sum. A call with 5 and -5
and a reply whose Sum was 99 before the call returns nil with Sum still 99,
not 0: a zero Sum is not transmitted. -/
theorem C11_sum_is_not_always_a_plus_b :
    prepared (NewServer serverConn) = some testServerEnd
    ∧ prepared (NewClient clientConn) = some testClientEnd
    ∧ (∃ w, roundTrip testClientEnd testServerEnd testCode "TestService.Add"
          [9223372036854775807, 1] [0] = .ret none [-9223372036854775808] w)
    ∧ (-9223372036854775808 : Int) ≠ 9223372036854775807 + 1
    ∧ (∃ w, roundTrip testServerEnd testClientEnd testCode "TestService.Add" [5, -5] [99]
          = .ret none [99] w)
    ∧ (99 : Int) ≠ 5 + -5 := by
  refine ⟨by decide, by decide, ⟨_, rfl⟩, by decide, ⟨_, rfl⟩, by decide⟩

/-- C11, amended. Bidirectional round trip of the test service. Let the server
side of a connection give a yamux session whose `Open` gives the stream `so`
and whose `Accept` gives the streams `sacc`, among them the outbound stream
`co` of the client side, and likewise the client side with `co`, `cacc` and
`so`. Then `NewServer` and `NewClient` return endpoints which, once their
accept loops have taken these streams and `Register(&TestService{})` has
returned nil, serve each other: for all integers a, b and r, a call of
"TestService.Add" with a, b and a reply whose Sum is r, issued on either
endpoint, returns nil with the lock released and with Sum equal to a + b as Go
computes it (wrapped to 64 bits), except that a result of 0 leaves r in place;
this is so too while a call of the peer is in flight in the opposite
direction. With a zero reply and a sum that fits a Go `int`, Sum is a + b. -/
theorem C11_round_trip_between_built_endpoints (connS connC : Conn) (ss cs : Session)
    (so co : Stream) (sacc cacc : List Stream)
    (hS : connS.server = .session ss) (hC : connC.client = .session cs)
    (hso : ss.openResult = .stream so) (hco : cs.openResult = .stream co)
    (hsa : ss.acceptResults = sacc.map StreamResult.stream)
    (hca : cs.acceptResults = cacc.map StreamResult.stream)
    (hsin : co ∈ sacc) (hcin : so ∈ cacc) (a b r : Int) :
    ∃ s c, prepared (NewServer connS) = some s ∧ prepared (NewClient connC) = some c
      ∧ (∃ w, roundTrip c s testCode "TestService.Add" [a, b] [r]
                = .ret none [if wrapInt (a + b) = 0 then r else wrapInt (a + b)] w
          ∧ w.mu = false
          ∧ ∀ m2 a2 r2 s1, s.CallStart m2 a2 r2 = .waiting s1 →
              roundTrip c s1 testCode "TestService.Add" [a, b] [r]
                = .ret none [if wrapInt (a + b) = 0 then r else wrapInt (a + b)] w)
      ∧ (∃ w, roundTrip s c testCode "TestService.Add" [a, b] [r]
                = .ret none [if wrapInt (a + b) = 0 then r else wrapInt (a + b)] w
          ∧ w.mu = false
          ∧ ∀ m2 a2 r2 c1, c.CallStart m2 a2 r2 = .waiting c1 →
              roundTrip s c1 testCode "TestService.Add" [a, b] [r]
                = .ret none [if wrapInt (a + b) = 0 then r else wrapInt (a + b)] w)
      ∧ (-2 ^ 63 ≤ a + b → a + b < 2 ^ 63 →
          (if wrapInt (a + b) = 0 then 0 else wrapInt (a + b)) = a + b) := by
  have hs := prepared_of_session (NewServer connS) _ ss so sacc
    (by simp [NewServer, hS, Session.Open, hso]) rfl hsa
  have hc := prepared_of_session (NewClient connC) _ cs co cacc
    (by simp [NewClient, hC, Session.Open, hco]) rfl hca
  refine ⟨_, _, hs, hc, ?_, ?_, ?_⟩
  · exact roundTrip_served _ _ testCode (Client.new co) "TestService.Add" [a, b] [r]
      [wrapInt (a + b)] rfl rfl rfl hsin rfl (by simp) (testCode_add a b).1
  · exact roundTrip_served _ _ testCode (Client.new so) "TestService.Add" [a, b] [r]
      [wrapInt (a + b)] rfl rfl rfl hcin rfl (by simp) (testCode_add a b).1
  · intro h1 h2
    rw [wrapInt_of_fits _ h1 h2]
    split <;> simp_all

/-- Witness for C11, amended: the two calls of the test, on the endpoints that
the constructors, the accept loops and `Register` make of `serverConn` and
`clientConn`. The client endpoint calls "TestService.Add" with 5 and 7 and
gets nil and Sum = 12; the server endpoint calls it with 10 and 15 and gets
nil and Sum = 25. -/
theorem C11_round_trip_between_built_endpoints_witness :
    (∃ s c w, prepared (NewServer serverConn) = some s
        ∧ prepared (NewClient clientConn) = some c
        ∧ roundTrip c s testCode "TestService.Add" [5, 7] [0] = .ret none [12] w)
    ∧ (∃ s c w, prepared (NewServer serverConn) = some s
        ∧ prepared (NewClient clientConn) = some c
        ∧ roundTrip s c testCode "TestService.Add" [10, 15] [0] = .ret none [25] w) := by
  constructor
  · obtain ⟨s, c, hs, hc, ⟨w, h, _⟩, _, _⟩ :=
      C11_round_trip_between_built_endpoints serverConn clientConn
        { openResult := .stream 2, acceptResults := [.stream 1], closeResults := [],
          closeCalls := 0 }
        { openResult := .stream 1, acceptResults := [.stream 2], closeResults := [],
          closeCalls := 0 }
        2 1 [1] [2] rfl rfl rfl rfl rfl rfl (by decide) (by decide) 5 7 0
    rw [show (if wrapInt (5 + 7) = 0 then (0 : Int) else wrapInt (5 + 7)) = 12 by decide] at h
    exact ⟨s, c, w, hs, hc, h⟩
  · obtain ⟨s, c, hs, hc, _, ⟨w, h, _⟩, _⟩ :=
      C11_round_trip_between_built_endpoints serverConn clientConn
        { openResult := .stream 2, acceptResults := [.stream 1], closeResults := [],
          closeCalls := 0 }
        { openResult := .stream 1, acceptResults := [.stream 2], closeResults := [],
          closeCalls := 0 }
        2 1 [1] [2] rfl rfl rfl rfl rfl rfl (by decide) (by decide) 10 15 0
    rw [show (if wrapInt (10 + 15) = 0 then (0 : Int) else wrapInt (10 + 15)) = 25 by decide] at h
    exact ⟨s, c, w, hs, hc, h⟩


/-- The two calls of the test in flight at once: each endpoint has written its
request and holds its own lock when the peer's request is dispatched on it,
and both calls return nil with the right sum. -/
theorem both_calls_in_flight :
    ∃ s1 c1 s2 c2,
      testServerEnd.CallStart "TestService.Add" [10, 15] [0] = .waiting s1
      ∧ testClientEnd.CallStart "TestService.Add" [5, 7] [0] = .waiting c1
      ∧ s1.mu = true ∧ c1.mu = true
      ∧ s1.dispatch testCode 1 { seq := 0, serviceMethod := "TestService.Add", args := [5, 7] }
          = some { seq := 0, err := none, reply := some [12] }
      ∧ c1.dispatch testCode 2 { seq := 0, serviceMethod := "TestService.Add", args := [10, 15] }
          = some { seq := 0, err := none, reply := some [25] }
      ∧ c1.deliver [0] { seq := 0, err := none, reply := some [12] } = .ret none [12] c2
      ∧ s1.deliver [0] { seq := 0, err := none, reply := some [25] } = .ret none [25] s2 := by
  exact ⟨_, _, _, _, rfl, rfl, rfl, rfl, by decide, by decide, rfl, rfl⟩

end Wsrpc
